import Mathlib

/-!
Verification of the sensitive-data container library: a shallow embedding
of the protection/lifecycle engine (page-aligned layout computation,
protection state machine, reference-counted shared read guards, exclusive
write guards, zeroization and teardown) together with theorems settling
the specification claims.
-/

set_option maxHeartbeats 1000000

namespace SensData

/-! ## Layout model

Embedding of `SensitiveData::layout`, which computes
`Layout::new::<T>().align_to(page_size())?.pad_to_align()`.
A Rust `Layout` is a pair (size, align). `align_to` is
`Layout::from_size_align(size, max(align, newAlign))`, which fails when
the alignment is not a power of two or when the size, rounded up to the
alignment, overflows `isize`. `pad_to_align` rounds the size up to a
multiple of the alignment. -/

/-- Maximum value of `isize` on a 64-bit platform. -/
def isizeMax : Nat := 2 ^ 63 - 1

/-- Round `size` up to the next multiple of `align`. -/
def roundUp (size align : Nat) : Nat := ((size + align - 1) / align) * align

/-- Executable power-of-two test, mirroring `usize::is_power_of_two` on a
64-bit platform (a `usize` power of two is `2 ^ k` for some `k < 64`). -/
def isPow2 (n : Nat) : Bool :=
  (List.range 64).any (fun k => n == 2 ^ k)

/-- Embedding of `Layout::from_size_align`: succeeds iff `align` is a
power of two and `size` does not exceed `isize::MAX - (align - 1)`. -/
def from_size_align (size align : Nat) : Option (Nat × Nat) :=
  if isPow2 align && decide (size ≤ isizeMax - (align - 1)) then some (size, align)
  else none

/-- Embedding of `Layout::align_to`: re-checks the layout with the
pointwise maximum of the current and requested alignment. -/
def align_to (size align newAlign : Nat) : Option (Nat × Nat) :=
  from_size_align size (max align newAlign)

/-- Embedding of `Layout::pad_to_align`: pads the size up to a multiple
of the alignment. -/
def pad_to_align (l : Nat × Nat) : Nat × Nat := (roundUp l.1 l.2, l.2)

/-- Embedding of `SensitiveData::layout` for a type of static size
`sizeT` and alignment `alignT` on a platform with page size `pageSize`:
`Layout::new::<T>().align_to(page_size())?.pad_to_align()`. -/
def layout (sizeT alignT pageSize : Nat) : Option (Nat × Nat) :=
  (align_to sizeT alignT pageSize).map pad_to_align

theorem isPow2_two_pow (k : Nat) (hk : k ≤ 63) : isPow2 (2 ^ k) = true := by
  unfold isPow2
  rw [List.any_eq_true]
  exact ⟨k, List.mem_range.mpr (by omega), beq_self_eq_true _⟩

theorem roundUp_eq_self_of_dvd (a s : Nat) (ha : 0 < a) (h : a ∣ s) :
    roundUp s a = s := by
  obtain ⟨q, rfl⟩ := h
  unfold roundUp
  rw [Nat.mul_comm a q]
  have hdiv : (q * a + a - 1) / a = q := by
    have h1 : q * a + a - 1 = (a - 1) + q * a := by omega
    rw [h1, Nat.add_mul_div_right _ _ ha, Nat.div_eq_of_lt (by omega)]
    omega
  rw [hdiv]

theorem dvd_roundUp (a s : Nat) : a ∣ roundUp s a :=
  dvd_mul_left a _

theorem max_pow_eq (a p : Nat) : max (2 ^ a) (2 ^ p) = 2 ^ max a p := by
  rcases Nat.le_total a p with h | h
  · rw [Nat.max_eq_right (Nat.pow_le_pow_right (by omega) h), Nat.max_eq_right h]
  · rw [Nat.max_eq_left (Nat.pow_le_pow_right (by omega) h), Nat.max_eq_left h]

theorem roundUp_max_pow (sizeT a p : Nat) (hdvd : 2 ^ a ∣ sizeT) :
    roundUp sizeT (max (2 ^ a) (2 ^ p)) = roundUp sizeT (2 ^ p) := by
  rcases Nat.le_total a p with h | h
  · rw [Nat.max_eq_right (Nat.pow_le_pow_right (by omega) h)]
  · rw [Nat.max_eq_left (Nat.pow_le_pow_right (by omega) h)]
    have hps : 2 ^ p ∣ sizeT := dvd_trans (Nat.pow_dvd_pow 2 h) hdvd
    rw [roundUp_eq_self_of_dvd _ _ (Nat.pos_pow_of_pos a (by omega)) hdvd,
        roundUp_eq_self_of_dvd _ _ (Nat.pos_pow_of_pos p (by omega)) hps]

/-- Claim C9: for every sized type T (alignment a power of two, size a
multiple of the alignment, as Rust guarantees) and a power-of-two page
size, the layout computation fails with a `LayoutError` (an `Option`
here, never a panic) exactly when the padded size overflows `isize`; on
success, the resulting size is `sizeof(T)` rounded up to a whole number
of pages (a multiple of the page size) and the alignment is the maximum
of the page size and the type alignment. -/
theorem layout_pads_to_whole_pages (sizeT a p : Nat) (ha : a ≤ 63) (hp : p ≤ 63)
    (hdvd : 2 ^ a ∣ sizeT) :
    (layout sizeT (2 ^ a) (2 ^ p) = none ↔
        isizeMax < sizeT + (max (2 ^ a) (2 ^ p) - 1)) ∧
    (isizeMax < sizeT + (max (2 ^ a) (2 ^ p) - 1) ∨
        layout sizeT (2 ^ a) (2 ^ p) =
          some (roundUp sizeT (2 ^ p), max (2 ^ a) (2 ^ p))) ∧
    (2 ^ p) ∣ roundUp sizeT (2 ^ p) := by
  have hpow : isPow2 (max (2 ^ a) (2 ^ p)) = true := by
    rw [max_pow_eq]; exact isPow2_two_pow _ (by omega)
  have hle : max (2 ^ a) (2 ^ p) - 1 ≤ isizeMax := by
    have h1 : max (2 ^ a) (2 ^ p) = 2 ^ max a p := max_pow_eq a p
    have h2 : 2 ^ max a p ≤ 2 ^ 63 := Nat.pow_le_pow_right (by omega) (by omega)
    unfold isizeMax
    omega
  have hiff : (sizeT ≤ isizeMax - (max (2 ^ a) (2 ^ p) - 1)) ↔
      ¬ isizeMax < sizeT + (max (2 ^ a) (2 ^ p) - 1) := by omega
  refine ⟨?_, ?_, dvd_roundUp _ _⟩
  · unfold layout align_to from_size_align
    rcases Nat.lt_or_ge isizeMax (sizeT + (max (2 ^ a) (2 ^ p) - 1)) with hov | hov
    · rw [if_neg (by simp [hpow]; omega)]
      simp [hov]
    · rw [if_pos (by simp [hpow]; omega)]
      simp
      omega
  · rcases Nat.lt_or_ge isizeMax (sizeT + (max (2 ^ a) (2 ^ p) - 1)) with hov | hov
    · exact Or.inl hov
    · refine Or.inr ?_
      unfold layout align_to from_size_align
      rw [if_pos (by simp [hpow]; omega)]
      simp [pad_to_align, roundUp_max_pow sizeT a p hdvd]

/-- Witness for C9 at sizeT = 8, alignT = 4, pageSize = 8. -/
theorem layout_pads_to_whole_pages_witness :
    (layout 8 (2 ^ 2) (2 ^ 3) = none ↔
        isizeMax < 8 + (max (2 ^ 2) (2 ^ 3) - 1)) ∧
    (isizeMax < 8 + (max (2 ^ 2) (2 ^ 3) - 1) ∨
        layout 8 (2 ^ 2) (2 ^ 3) =
          some (roundUp 8 (2 ^ 3), max (2 ^ 2) (2 ^ 3))) ∧
    (2 ^ 3) ∣ roundUp 8 (2 ^ 3) :=
  layout_pads_to_whole_pages 8 2 3 (by omega) (by omega) (by decide)

/-! ## Shared read guard model

Embedding of the `DerefHolder` reference counting protocol. A container
holds an atomic `deref_counter` and a protection state driven by
`mprotect` syscalls. Each `DerefHolder` carries a `changed_permissions`
flag. `Deref::deref` performs `changed_permissions.swap(true)` and, when
the flag was false, `deref_counter.fetch_add(1)`, calling
`make_readable` exactly when the pre-increment counter was 0.
`Drop::drop` loads `changed_permissions` and, when set, performs
`deref_counter.fetch_sub(1)`, calling `make_inaccessible` exactly when
the pre-decrement counter was 1. Guards are identified by their index in
creation order; an interleaving is a list of events. -/

/-- Protection mode of the region, as enforced by `mprotect`. -/
inductive Prot
  | Inaccessible
  | Readable
  | Writable
deriving DecidableEq, Repr

/-- Protection syscalls issued by the container. -/
inductive Syscall
  | makeReadable
  | makeWritable
  | makeInaccessible
deriving DecidableEq, Repr

/-- State of a single `DerefHolder`: its `changed_permissions` flag and
whether the guard has already been dropped. -/
structure GuardSt where
  changed : Bool
  released : Bool
deriving DecidableEq, Repr

/-- State of a container together with its shared read guards: the
protection mode, the `deref_counter`, the per-guard states in creation
order, and the log of protection syscalls issued so far. -/
structure RState where
  prot : Prot
  counter : Nat
  guards : List GuardSt
  calls : List Syscall
deriving DecidableEq, Repr

/-- Events of the shared read guard protocol: `borrow` creates a guard,
`deref i` is a dereference of guard `i`, `release i` drops guard `i`. -/
inductive REvent
  | borrow
  | deref (i : Nat)
  | release (i : Nat)
deriving DecidableEq, Repr

/-- One step of the shared read guard protocol, following
`SensitiveData::borrow`, `Deref for DerefHolder` and
`Drop for DerefHolder` from the source. `deref` models
`changed_permissions.swap(true)` followed (when the flag was clear) by
`deref_counter.fetch_add(1)` with `make_readable` on the 0 → 1 edge;
`release` models `changed_permissions.load()` followed (when set) by
`deref_counter.fetch_sub(1)` with `make_inaccessible` when the
pre-decrement value was 1. The counter is a `usize`; within valid
interleavings it never under- or overflows (the invariant below bounds
it by the number of live guards), so plain `Nat` arithmetic coincides
with the wrapping `usize` arithmetic on every reachable state. -/
def rstep (s : RState) : REvent → RState
  | REvent.borrow => { s with guards := s.guards ++ [⟨false, false⟩] }
  | REvent.deref i =>
    match s.guards[i]? with
    | some g =>
      match g.changed with
      | true => s
      | false =>
        let gs := s.guards.set i ⟨true, g.released⟩
        match s.counter with
        | 0 =>
          { prot := Prot.Readable, counter := 1, guards := gs,
            calls := s.calls ++ [Syscall.makeReadable] }
        | n + 1 => { s with guards := gs, counter := n + 2 }
    | none => s
  | REvent.release i =>
    match s.guards[i]? with
    | some g =>
      let gs := s.guards.set i ⟨g.changed, true⟩
      match g.changed with
      | false => { s with guards := gs }
      | true =>
        match s.counter with
        | 1 =>
          { prot := Prot.Inaccessible, counter := 0, guards := gs,
            calls := s.calls ++ [Syscall.makeInaccessible] }
        | n => { s with guards := gs, counter := n - 1 }
    | none => s

/-- Run a list of events from a state. -/
def runR (s : RState) : List REvent → RState
  | [] => s
  | e :: es => runR (rstep s e) es

/-- A guard index is live when it names a created, not yet dropped guard. -/
def liveGuard (s : RState) (i : Nat) : Bool :=
  match s.guards[i]? with
  | some g => !g.released
  | none => false

/-- Validity of an event in a state: dereferences and drops act on live
guards only (in Rust a guard cannot be used after it is dropped, and is
dropped at most once). -/
def validEvent (s : RState) : REvent → Bool
  | REvent.borrow => true
  | REvent.deref i => liveGuard s i
  | REvent.release i => liveGuard s i

/-- Validity of an interleaving from a state. -/
def validFrom (s : RState) : List REvent → Bool
  | [] => true
  | e :: es => validEvent s e && validFrom (rstep s e) es

/-- Initial state of a freshly constructed container: inaccessible, no
guards, counter 0. -/
def rinit : RState := ⟨Prot.Inaccessible, 0, [], []⟩

/-- A guard is registered when it has incremented the counter (first
dereference happened) and has not yet been dropped. -/
def registered (g : GuardSt) : Bool := g.changed && !g.released

theorem countP_set (p : GuardSt → Bool) (l : List GuardSt) (i : Nat)
    (g g' : GuardSt) (h : l[i]? = some g) :
    (l.set i g').countP p + (if p g then 1 else 0) =
      l.countP p + (if p g' then 1 else 0) := by
  induction l generalizing i with
  | nil => simp at h
  | cons a l ih =>
    cases i with
    | zero =>
      simp at h
      subst h
      simp [List.countP_cons]
      omega
    | succ i =>
      simp at h
      have := ih i h
      simp [List.set, List.countP_cons]
      omega

theorem countP_pos_of_mem (p : GuardSt → Bool) (l : List GuardSt) (i : Nat)
    (g : GuardSt) (h : l[i]? = some g) (hp : p g = true) :
    1 ≤ l.countP p :=
  List.countP_pos_iff.mpr ⟨g, List.getElem?_mem h, hp⟩

/-- Invariant of the shared read guard protocol: the counter equals the
number of registered guards, the region is readable exactly when at
least one guard is registered, and the region is never writable. -/
def RInv (s : RState) : Prop :=
  s.counter = s.guards.countP registered ∧
  (s.prot = Prot.Readable ↔ 1 ≤ s.counter) ∧
  (s.prot = Prot.Readable ∨ s.prot = Prot.Inaccessible)

theorem rstep_preserves (s : RState) (e : REvent) (hv : validEvent s e = true)
    (hI : RInv s) : RInv (rstep s e) := by
  obtain ⟨hc, hr, hp⟩ := hI
  cases e with
  | borrow =>
    refine ⟨?_, hr, hp⟩
    simp [rstep, List.countP_append, registered, hc]
  | deref i =>
    simp only [validEvent, liveGuard] at hv
    cases hg : s.guards[i]? with
    | none => rw [hg] at hv; simp at hv
    | some g =>
      rw [hg] at hv
      simp at hv
      cases hch : g.changed with
      | true =>
        simp only [rstep, hg, hch]
        exact ⟨hc, hr, hp⟩
      | false =>
        have hcount := countP_set registered s.guards i g ⟨true, false⟩ hg
        simp [registered, hch, hv] at hcount
        cases hz : s.counter with
        | zero =>
          rw [hz] at hc
          simp only [rstep, hg, hch, hv, hz]
          refine ⟨?_, ?_, Or.inl rfl⟩
          · show (1 : Nat) =
              List.countP registered (s.guards.set i ⟨true, false⟩)
            omega
          · show Prot.Readable = Prot.Readable ↔ 1 ≤ 1
            simp
        | succ n =>
          rw [hz] at hc
          have hread : s.prot = Prot.Readable := hr.mpr (by omega)
          simp only [rstep, hg, hch, hv, hz]
          refine ⟨?_, ?_, ?_⟩
          · show n + 2 =
              List.countP registered (s.guards.set i ⟨true, false⟩)
            omega
          · show s.prot = Prot.Readable ↔ 1 ≤ n + 2
            exact ⟨fun _ => by omega, fun _ => hread⟩
          · show s.prot = Prot.Readable ∨ s.prot = Prot.Inaccessible
            exact Or.inl hread
  | release i =>
    simp only [validEvent, liveGuard] at hv
    cases hg : s.guards[i]? with
    | none => rw [hg] at hv; simp at hv
    | some g =>
      rw [hg] at hv
      simp at hv
      cases hch : g.changed with
      | false =>
        have hcount := countP_set registered s.guards i g ⟨false, true⟩ hg
        simp [registered, hch, hv] at hcount
        simp only [rstep, hg, hch]
        refine ⟨?_, hr, hp⟩
        show s.counter = List.countP registered (s.guards.set i ⟨false, true⟩)
        omega
      | true =>
        have hcount := countP_set registered s.guards i g ⟨true, true⟩ hg
        simp [registered, hch, hv] at hcount
        have hpos : 1 ≤ s.guards.countP registered :=
          countP_pos_of_mem registered s.guards i g hg
            (by simp [registered, hch, hv])
        cases hz : s.counter with
        | zero =>
          rw [hz] at hc
          exfalso
          omega
        | succ n =>
          rw [hz] at hc
          cases n with
          | zero =>
            simp only [rstep, hg, hch, hz]
            refine ⟨?_, ?_, Or.inr rfl⟩
            · show (0 : Nat) =
                List.countP registered (s.guards.set i ⟨true, true⟩)
              omega
            · show Prot.Inaccessible = Prot.Readable ↔ 1 ≤ 0
              simp
          | succ m =>
            have hread : s.prot = Prot.Readable := hr.mpr (by omega)
            simp only [rstep, hg, hch, hz]
            refine ⟨?_, ?_, ?_⟩
            · show m + 2 - 1 =
                List.countP registered (s.guards.set i ⟨true, true⟩)
              omega
            · show s.prot = Prot.Readable ↔ 1 ≤ m + 2 - 1
              exact ⟨fun _ => by omega, fun _ => hread⟩
            · show s.prot = Prot.Readable ∨ s.prot = Prot.Inaccessible
              exact Or.inl hread

theorem runR_preserves (es : List REvent) (s : RState)
    (hv : validFrom s es = true) (hI : RInv s) : RInv (runR s es) := by
  induction es generalizing s with
  | nil => exact hI
  | cons e es ih =>
    simp only [validFrom, Bool.and_eq_true] at hv
    exact ih _ hv.2 (rstep_preserves s e hv.1 hI)

/-- Claim C1: for every valid interleaving of shared read guard
dereferences and releases starting from a fresh container, the region is
Readable iff at least one guard has registered, the `deref_counter`
equals the number of registered guards (so the first registration makes
the region readable and the release of the last registered guard
restores Inaccessible), and the region is never left in any state other
than Readable or Inaccessible. -/
theorem readable_iff_reader_registered (es : List REvent)
    (hv : validFrom rinit es = true) :
    (runR rinit es).counter = (runR rinit es).guards.countP registered ∧
    ((runR rinit es).prot = Prot.Readable ↔ 1 ≤ (runR rinit es).counter) ∧
    ((runR rinit es).prot = Prot.Readable ∨
      (runR rinit es).prot = Prot.Inaccessible) :=
  runR_preserves es rinit hv ⟨rfl, by simp [rinit], Or.inr rfl⟩

/-- Witness for C1: two guards, dereferenced and released in an
interleaved order; the run ends Inaccessible with counter 0. -/
theorem readable_iff_reader_registered_witness :
    (validFrom rinit
        [REvent.borrow, REvent.borrow, REvent.deref 0, REvent.deref 1,
         REvent.release 0, REvent.release 1] = true) ∧
    ((runR rinit
        [REvent.borrow, REvent.borrow, REvent.deref 0, REvent.deref 1,
         REvent.release 0, REvent.release 1]).counter =
      (runR rinit
        [REvent.borrow, REvent.borrow, REvent.deref 0, REvent.deref 1,
         REvent.release 0, REvent.release 1]).guards.countP registered ∧
    ((runR rinit
        [REvent.borrow, REvent.borrow, REvent.deref 0, REvent.deref 1,
         REvent.release 0, REvent.release 1]).prot = Prot.Readable ↔
      1 ≤ (runR rinit
        [REvent.borrow, REvent.borrow, REvent.deref 0, REvent.deref 1,
         REvent.release 0, REvent.release 1]).counter) ∧
    ((runR rinit
        [REvent.borrow, REvent.borrow, REvent.deref 0, REvent.deref 1,
         REvent.release 0, REvent.release 1]).prot = Prot.Readable ∨
      (runR rinit
        [REvent.borrow, REvent.borrow, REvent.deref 0, REvent.deref 1,
         REvent.release 0, REvent.release 1]).prot = Prot.Inaccessible)) :=
  ⟨by decide, readable_iff_reader_registered _ (by decide)⟩

/-- Claim C7: `borrow()` always succeeds and changes neither the
protection state, nor the counter, nor the syscall log (it only appends
a fresh guard with a cleared `changed_permissions` flag); dropping a
guard that never registered changes nothing but the guard's own
released flag — no syscall, no counter change. -/
theorem borrow_and_unregistered_release_are_noops (s : RState) (i : Nat)
    (g : GuardSt) (hg : s.guards[i]? = some g) (hch : g.changed = false) :
    (rstep s REvent.borrow).prot = s.prot ∧
    (rstep s REvent.borrow).counter = s.counter ∧
    (rstep s REvent.borrow).calls = s.calls ∧
    (rstep s REvent.borrow).guards = s.guards ++ [⟨false, false⟩] ∧
    (rstep s (REvent.release i)).prot = s.prot ∧
    (rstep s (REvent.release i)).counter = s.counter ∧
    (rstep s (REvent.release i)).calls = s.calls := by
  refine ⟨rfl, rfl, rfl, rfl, ?_, ?_, ?_⟩ <;>
    simp [rstep, hg, hch]

/-- Witness for C7 on a container with one never-dereferenced guard. -/
theorem borrow_and_unregistered_release_are_noops_witness :
    (rstep ⟨Prot.Inaccessible, 0, [⟨false, false⟩], []⟩ REvent.borrow).prot =
        Prot.Inaccessible ∧
    (rstep ⟨Prot.Inaccessible, 0, [⟨false, false⟩], []⟩ REvent.borrow).counter = 0 ∧
    (rstep ⟨Prot.Inaccessible, 0, [⟨false, false⟩], []⟩ REvent.borrow).calls = [] ∧
    (rstep ⟨Prot.Inaccessible, 0, [⟨false, false⟩], []⟩ REvent.borrow).guards =
        [⟨false, false⟩] ++ [⟨false, false⟩] ∧
    (rstep ⟨Prot.Inaccessible, 0, [⟨false, false⟩], []⟩ (REvent.release 0)).prot =
        Prot.Inaccessible ∧
    (rstep ⟨Prot.Inaccessible, 0, [⟨false, false⟩], []⟩ (REvent.release 0)).counter = 0 ∧
    (rstep ⟨Prot.Inaccessible, 0, [⟨false, false⟩], []⟩ (REvent.release 0)).calls = [] :=
  borrow_and_unregistered_release_are_noops
    ⟨Prot.Inaccessible, 0, [⟨false, false⟩], []⟩ 0 ⟨false, false⟩ rfl rfl

/-! ## Exclusive write guard model

Embedding of `DerefMutHolder`. In the source, `Deref::deref` calls
`self.holder.make_readable()` on every read dereference and
`DerefMut::deref_mut` calls `self.holder.make_writable()` on every
mutable dereference — there is no per-guard flag and no first-deref
test in either impl; `Drop::drop` calls `make_inaccessible()`
unconditionally. -/

/-- State of a container under an exclusive write guard: the protection
mode and the log of protection syscalls issued. -/
structure MState where
  prot : Prot
  calls : List Syscall
deriving DecidableEq, Repr

/-- Dereference events of an exclusive write guard. -/
inductive MEvent
  | readDeref
  | writeDeref
deriving DecidableEq, Repr

/-- One dereference of a `DerefMutHolder`, following `Deref` and
`DerefMut` for `DerefMutHolder` from the source: each read dereference
issues `make_readable`, each mutable dereference issues
`make_writable`, with no conditional guarding either call. -/
def mstep (s : MState) : MEvent → MState
  | MEvent.readDeref =>
    { prot := Prot.Readable, calls := s.calls ++ [Syscall.makeReadable] }
  | MEvent.writeDeref =>
    { prot := Prot.Writable, calls := s.calls ++ [Syscall.makeWritable] }

/-- Run a sequence of dereferences of an exclusive write guard. -/
def runM (s : MState) : List MEvent → MState
  | [] => s
  | e :: es => runM (mstep s e) es

/-- Syscall issued by a single dereference. -/
def mutDerefCall : MEvent → Syscall
  | MEvent.readDeref => Syscall.makeReadable
  | MEvent.writeDeref => Syscall.makeWritable

/-- State of a container when its exclusive write guard is created:
inaccessible, no syscalls issued yet (`borrow_mut` performs none). -/
def minit : MState := ⟨Prot.Inaccessible, []⟩

/-- Counterexample to claim C3 as stated: a second read dereference
issues `make_readable` again (not only the first), and a read
dereference performed after the guard has entered Writable via a
mutable dereference does perform a readable transition, downgrading the
region from Writable back to Readable. -/
theorem mut_deref_not_first_only :
    (runM minit [MEvent.readDeref, MEvent.readDeref]).calls =
        [Syscall.makeReadable, Syscall.makeReadable] ∧
    (runM minit [MEvent.writeDeref]).prot = Prot.Writable ∧
    (runM minit [MEvent.writeDeref, MEvent.readDeref]).calls =
        [Syscall.makeWritable, Syscall.makeReadable] ∧
    (runM minit [MEvent.writeDeref, MEvent.readDeref]).prot =
        Prot.Readable := by
  decide

/-- Claim C3 amended: for the exclusive write guard, `make_readable` is
called on every read dereference and `make_writable` on every mutable
dereference, unconditionally — the syscall log of any dereference
sequence is exactly its image under the per-deref syscall map (so a
read after a write performs a fresh readable transition rather than
relying on writable implying readability). -/
theorem mut_deref_syscall_per_deref (es : List MEvent) :
    (runM minit es).calls = es.map mutDerefCall := by
  have general : ∀ (es : List MEvent) (s : MState),
      (runM s es).calls = s.calls ++ es.map mutDerefCall := by
    intro es
    induction es with
    | nil => intro s; simp [runM]
    | cons e es ih =>
      intro s
      cases e <;> simp [runM, mstep, ih, mutDerefCall]
  have h := general es minit
  simpa [minit] using h

/-! ## Lifecycle model

Byte-level embedding of construction, zeroization and destruction of a
`SensitiveData<T>` container. The stored value is represented by its
byte string (`HolderInner<T>` places the value at offset 0; the
`PhantomPinned` marker is zero-sized, so
`size_of::<HolderInner<T>>() = size_of::<T>() = sizeT`). The storage is
`layout.size` bytes; `alloc` returns them with arbitrary (garbage)
contents. OS outcomes of the fallible syscalls are an environment
oracle. Every operation additionally returns the list of effects it
performs, in order. -/

/-- Error type of the crate (`err::Error`). -/
inductive RError
  | layoutError
  | ioError
deriving DecidableEq, Repr

/-- Result of an operation: an `Ok` value, a returned `Err`, or a fatal
panic raised by an `expect` on a failed syscall. -/
inductive Outcome (α : Type)
  | ok (a : α)
  | err (e : RError)
  | fatal
deriving DecidableEq, Repr

/-- Effects performed by the container, in program order. `volatileZero
n` is the `write_volatile` of `n` zero bytes at offset 0, `fence` the
release fence, `dropInPlace b` the `std::ptr::drop_in_place` call on
storage whose initialization status is `b`. -/
inductive LEvent
  | alloc
  | mlock
  | writeValue
  | volatileZero (n : Nat)
  | fence
  | mprotectNone
  | mprotectRead
  | mprotectReadWrite
  | dropInPlace (wasInit : Bool)
  | dealloc
deriving DecidableEq, Repr

/-- State of a `SensitiveData<T>` container: the static value size, the
page-padded region size, the region bytes, the protection mode, whether
a `T` value has been written into the storage, and whether the region
is memory-locked. -/
structure SDState where
  sizeT : Nat
  layoutSize : Nat
  bytes : List Nat
  prot : Prot
  isInit : Bool
  locked : Bool
deriving DecidableEq, Repr

/-- Outcomes of the OS syscalls used during construction and
destruction: `mlock`, `mprotect(PROT_NONE)` and
`mprotect(PROT_READ|PROT_WRITE)`. -/
structure OsEnv where
  lockOk : Bool
  protNoneOk : Bool
  protRwOk : Bool
deriving DecidableEq, Repr

/-- Environment in which every syscall succeeds. -/
def envAllOk : OsEnv := ⟨true, true, true⟩

/-- Embedding of `SensitiveData::zeroize_inner`:
`write_volatile(self.inner_ptr, zeroed())` writes
`size_of::<HolderInner<T>>() = sizeT` zero bytes at offset 0, then
`fence(Ordering::Release)`. -/
def zeroize_inner (s : SDState) : SDState × List LEvent :=
  ({ s with bytes := List.replicate s.sizeT 0 ++ s.bytes.drop s.sizeT },
   [LEvent.volatileZero s.sizeT, LEvent.fence])

/-- Embedding of `Drop for SensitiveData`: `make_writable().expect(..)`,
then `drop_in_place(self.inner_ptr)`, then `zeroize_inner()`, then
`dealloc`. -/
def sd_drop (env : OsEnv) (s : SDState) : Outcome SDState × List LEvent :=
  match env.protRwOk with
  | false => (Outcome.fatal, [LEvent.mprotectReadWrite])
  | true =>
    let s1 : SDState := { s with prot := Prot.Writable, isInit := false }
    let z := zeroize_inner s1
    (Outcome.ok { z.1 with locked := false },
     [LEvent.mprotectReadWrite, LEvent.dropInPlace s.isInit] ++ z.2 ++
       [LEvent.dealloc])

/-- Embedding of `SensitiveData::new_holder`: compute the layout
(propagating `LayoutError` with `?`), allocate, then `lock_memory()?`.
When the lock fails the `?` operator returns the error and drops the
already-constructed local `data`, running `Drop for SensitiveData`. -/
def new_holder (env : OsEnv) (sizeT alignT pageSize : Nat)
    (garbage : List Nat) : Outcome SDState × List LEvent :=
  match layout sizeT alignT pageSize with
  | none => (Outcome.err RError.layoutError, [])
  | some l =>
    let s : SDState := ⟨sizeT, l.1, garbage, Prot.Writable, false, false⟩
    match env.lockOk with
    | true => (Outcome.ok { s with locked := true },
               [LEvent.alloc, LEvent.mlock])
    | false =>
      let d := sd_drop env s
      (match d.1 with
       | Outcome.fatal => Outcome.fatal
       | _ => Outcome.err RError.ioError,
       [LEvent.alloc, LEvent.mlock] ++ d.2)

/-- Embedding of `SensitiveData::new`: `new_holder()?`, then
`ptr::write` of `HolderInner { value: t, .. }` at offset 0, then
`make_inaccessible().expect(..)` — a failed inaccessible transition is
a panic, not an `Err`. -/
def new (env : OsEnv) (alignT pageSize : Nat) (v garbage : List Nat) :
    Outcome SDState × List LEvent :=
  match new_holder env v.length alignT pageSize garbage with
  | (Outcome.ok h, log) =>
    let h1 : SDState := { h with bytes := v ++ h.bytes.drop h.sizeT,
                                 isInit := true }
    match env.protNoneOk with
    | true => (Outcome.ok { h1 with prot := Prot.Inaccessible },
               log ++ [LEvent.writeValue, LEvent.mprotectNone])
    | false => (Outcome.fatal, log ++ [LEvent.writeValue, LEvent.mprotectNone])
  | (o, log) => (o, log)

/-- Embedding of `SensitiveData::new_zeroed`: `new_holder()?`, then
`zeroize_inner()`, then `make_inaccessible().expect(..)`. -/
def new_zeroed (env : OsEnv) (sizeT alignT pageSize : Nat)
    (garbage : List Nat) : Outcome SDState × List LEvent :=
  match new_holder env sizeT alignT pageSize garbage with
  | (Outcome.ok h, log) =>
    let z := zeroize_inner h
    match env.protNoneOk with
    | true => (Outcome.ok { z.1 with prot := Prot.Inaccessible },
               log ++ z.2 ++ [LEvent.mprotectNone])
    | false => (Outcome.fatal, log ++ z.2 ++ [LEvent.mprotectNone])
  | (o, log) => (o, log)

/-- Value observed by a guard dereference:
`&(*self.holder.inner_ptr).value`, the `sizeT` bytes at offset 0. -/
def derefRead (s : SDState) : List Nat := s.bytes.take s.sizeT

theorem new_holder_ok_shape (env : OsEnv) (sizeT alignT pageSize : Nat)
    (garbage : List Nat) (h : SDState) (log : List LEvent)
    (hk : new_holder env sizeT alignT pageSize garbage = (Outcome.ok h, log)) :
    h.sizeT = sizeT ∧ h.isInit = false ∧ h.bytes = garbage ∧
    log = [LEvent.alloc, LEvent.mlock] ∧ env.lockOk = true := by
  unfold new_holder at hk
  cases hl : layout sizeT alignT pageSize with
  | none => rw [hl] at hk; simp at hk
  | some l =>
    rw [hl] at hk
    cases hlk : env.lockOk with
    | true =>
      rw [hlk] at hk
      simp at hk
      obtain ⟨h1, h2⟩ := hk
      subst h1
      subst h2
      exact ⟨rfl, rfl, rfl, rfl, rfl⟩
    | false =>
      rw [hlk] at hk
      simp only [] at hk
      cases hrw : env.protRwOk with
      | true => simp [sd_drop, hrw] at hk
      | false => simp [sd_drop, hrw] at hk

theorem new_ok_shape (env : OsEnv) (alignT pageSize : Nat)
    (v garbage : List Nat) (c : SDState) (log : List LEvent)
    (h : new env alignT pageSize v garbage = (Outcome.ok c, log)) :
    c.sizeT = v.length ∧ c.isInit = true ∧
    c.bytes = v ++ garbage.drop v.length ∧ c.prot = Prot.Inaccessible ∧
    log = [LEvent.alloc, LEvent.mlock, LEvent.writeValue,
           LEvent.mprotectNone] := by
  unfold new at h
  cases hnh : new_holder env v.length alignT pageSize garbage with
  | mk o lg =>
    rw [hnh] at h
    cases o with
    | ok hh =>
      obtain ⟨hsz, _, hby, hlog, _⟩ :=
        new_holder_ok_shape env v.length alignT pageSize garbage hh lg hnh
      cases hpn : env.protNoneOk with
      | true =>
        rw [hpn] at h
        simp at h
        obtain ⟨hc, hl⟩ := h
        subst hc
        subst hl
        refine ⟨hsz, rfl, ?_, rfl, by rw [hlog]; rfl⟩
        show v ++ hh.bytes.drop hh.sizeT = v ++ garbage.drop v.length
        rw [hby, hsz]
      | false => rw [hpn] at h; simp at h
    | err e => simp at h
    | fatal => simp at h

theorem new_zeroed_ok_shape (env : OsEnv) (sizeT alignT pageSize : Nat)
    (garbage : List Nat) (c : SDState) (log : List LEvent)
    (h : new_zeroed env sizeT alignT pageSize garbage = (Outcome.ok c, log)) :
    c.sizeT = sizeT ∧
    c.bytes = List.replicate sizeT 0 ++ garbage.drop sizeT ∧
    c.prot = Prot.Inaccessible := by
  unfold new_zeroed at h
  cases hnh : new_holder env sizeT alignT pageSize garbage with
  | mk o lg =>
    rw [hnh] at h
    cases o with
    | ok hh =>
      obtain ⟨hsz, _, hby, _, _⟩ :=
        new_holder_ok_shape env sizeT alignT pageSize garbage hh lg hnh
      cases hpn : env.protNoneOk with
      | true =>
        rw [hpn] at h
        simp at h
        obtain ⟨hc, hl⟩ := h
        subst hc
        subst hl
        refine ⟨hsz, ?_, rfl⟩
        show List.replicate hh.sizeT 0 ++ hh.bytes.drop hh.sizeT =
          List.replicate sizeT 0 ++ garbage.drop sizeT
        rw [hby, hsz]
      | false => rw [hpn] at h; simp at h
    | err e => simp at h
    | fatal => simp at h

/-- Claim C5: whenever `new(v)` succeeds, a shared read guard
dereference on the returned container observes exactly the value `v`
that was passed in (it is written at offset 0 and is not copied or
altered by the inaccessible transition that follows). -/
theorem new_then_read_observes_value (env : OsEnv) (alignT pageSize : Nat)
    (v garbage : List Nat) (c : SDState) (log : List LEvent)
    (h : new env alignT pageSize v garbage = (Outcome.ok c, log)) :
    derefRead c = v := by
  obtain ⟨hsz, _, hby, _, _⟩ :=
    new_ok_shape env alignT pageSize v garbage c log h
  unfold derefRead
  rw [hby, hsz]
  exact List.take_left' rfl

/-- Witness for C5: `new` of the byte value [1, 2, 3] on a region of 4
bytes of garbage, every syscall succeeding. -/
theorem new_then_read_observes_value_witness :
    derefRead ⟨3, 4, [1, 2, 3, 9], Prot.Inaccessible, true, true⟩ =
      [1, 2, 3] :=
  new_then_read_observes_value envAllOk 1 4 [1, 2, 3] [9, 9, 9, 9]
    ⟨3, 4, [1, 2, 3, 9], Prot.Inaccessible, true, true⟩
    [LEvent.alloc, LEvent.mlock, LEvent.writeValue, LEvent.mprotectNone]
    (by decide)

/-- Claim C6: whenever `new_zeroed()` succeeds, a shared read guard
dereference on the returned container observes a value all of whose
bytes are zero. -/
theorem new_zeroed_then_read_observes_zeros (env : OsEnv)
    (sizeT alignT pageSize : Nat) (garbage : List Nat) (c : SDState)
    (log : List LEvent)
    (h : new_zeroed env sizeT alignT pageSize garbage = (Outcome.ok c, log)) :
    derefRead c = List.replicate sizeT 0 := by
  obtain ⟨hsz, hby, _⟩ :=
    new_zeroed_ok_shape env sizeT alignT pageSize garbage c log h
  unfold derefRead
  rw [hby, hsz]
  exact List.take_left' (List.length_replicate _ _)

/-- Witness for C6: `new_zeroed` for a 2-byte value on a 4-byte region
of garbage, every syscall succeeding. -/
theorem new_zeroed_then_read_observes_zeros_witness :
    derefRead ⟨2, 4, [0, 0, 9, 9], Prot.Inaccessible, false, true⟩ =
      List.replicate 2 0 :=
  new_zeroed_then_read_observes_zeros envAllOk 2 1 4 [9, 9, 9, 9]
    ⟨2, 4, [0, 0, 9, 9], Prot.Inaccessible, false, true⟩
    [LEvent.alloc, LEvent.mlock, LEvent.volatileZero 2, LEvent.fence,
     LEvent.mprotectNone]
    (by decide)

/-- Counterexample to claim C2 as stated: for a 1-byte value in a
4-byte page-padded region, the zeroization performed during destruction
issues a volatile write of only 1 byte (`size_of::<HolderInner<T>>()`),
not of all `memory_layout.size()` bytes, and after destruction the
second byte of the region still holds its old (non-zero) content. -/
theorem zeroize_not_whole_region :
    (new envAllOk 1 4 [7] [9, 9, 9, 9]).1 =
        Outcome.ok ⟨1, 4, [7, 9, 9, 9], Prot.Inaccessible, true, true⟩ ∧
    sd_drop envAllOk ⟨1, 4, [7, 9, 9, 9], Prot.Inaccessible, true, true⟩ =
        (Outcome.ok ⟨1, 4, [0, 9, 9, 9], Prot.Writable, false, false⟩,
         [LEvent.mprotectReadWrite, LEvent.dropInPlace true,
          LEvent.volatileZero 1, LEvent.fence, LEvent.dealloc]) ∧
    ¬ ([0, 9, 9, 9] = List.replicate 4 (0 : Nat)) := by
  decide

/-- Claim C2 amended: the zeroization during destruction overwrites the
first `sizeof(T)` bytes of the region (the bytes that ever held the
value — `size_of::<HolderInner<T>>() = size_of::<T>()`) with zero using
a volatile write the compiler cannot eliminate, immediately followed by
a release fence; the padding bytes beyond `sizeof(T)` up to
`memory_layout.size()` are left untouched. -/
theorem zeroize_covers_value_bytes (s : SDState)
    (hlen : s.bytes.length = s.layoutSize) (hle : s.sizeT ≤ s.layoutSize) :
    (zeroize_inner s).1.bytes.take s.sizeT = List.replicate s.sizeT 0 ∧
    (zeroize_inner s).1.bytes.drop s.sizeT = s.bytes.drop s.sizeT ∧
    (zeroize_inner s).1.bytes.length = s.layoutSize ∧
    (zeroize_inner s).2 = [LEvent.volatileZero s.sizeT, LEvent.fence] := by
  refine ⟨?_, ?_, ?_, rfl⟩
  · show (List.replicate s.sizeT 0 ++ s.bytes.drop s.sizeT).take s.sizeT =
      List.replicate s.sizeT 0
    exact List.take_left' (List.length_replicate _ _)
  · show (List.replicate s.sizeT 0 ++ s.bytes.drop s.sizeT).drop s.sizeT =
      s.bytes.drop s.sizeT
    exact List.drop_left' (List.length_replicate _ _)
  · show (List.replicate s.sizeT 0 ++ s.bytes.drop s.sizeT).length =
      s.layoutSize
    simp [List.length_append, List.length_replicate, List.length_drop]
    omega

/-- Witness for the amended C2 on a 2-byte value in a 4-byte region. -/
theorem zeroize_covers_value_bytes_witness :
    (zeroize_inner ⟨2, 4, [7, 7, 9, 9], Prot.Writable, false, true⟩).1.bytes.take 2 =
        List.replicate 2 0 ∧
    (zeroize_inner ⟨2, 4, [7, 7, 9, 9], Prot.Writable, false, true⟩).1.bytes.drop 2 =
        List.drop 2 [7, 7, 9, 9] ∧
    (zeroize_inner ⟨2, 4, [7, 7, 9, 9], Prot.Writable, false, true⟩).1.bytes.length = 4 ∧
    (zeroize_inner ⟨2, 4, [7, 7, 9, 9], Prot.Writable, false, true⟩).2 =
        [LEvent.volatileZero 2, LEvent.fence] :=
  zeroize_covers_value_bytes ⟨2, 4, [7, 7, 9, 9], Prot.Writable, false, true⟩
    (by decide) (by decide)

/-- Counterexample to claim C8 as stated: with the memory lock
succeeding but the initial `mprotect(PROT_NONE)` failing, `new` does
not return an `Err` — the `expect` on `make_inaccessible` panics. -/
theorem construction_inaccessible_failure_panics :
    (new ⟨true, false, true⟩ 1 1 [5] [9]).1 = Outcome.fatal ∧
    (new_zeroed ⟨true, false, true⟩ 1 1 1 [9]).1 = Outcome.fatal := by
  decide

/-- Claim C8 amended: a layout failure and a memory-lock failure at
construction are surfaced to the caller of `new` as an `Err` of the
returned `Result` (the lock failure is propagated, never silently
ignored); a failure of the initial transition to Inaccessible, however,
is a panic via `expect`, not an `Err`. -/
theorem construction_failures_surfaced (env : OsEnv)
    (alignT pageSize : Nat) (v garbage : List Nat) :
    (layout v.length alignT pageSize = none →
      (new env alignT pageSize v garbage).1 = Outcome.err RError.layoutError) ∧
    ((layout v.length alignT pageSize).isSome = true → env.lockOk = false →
      env.protRwOk = true →
      (new env alignT pageSize v garbage).1 = Outcome.err RError.ioError) ∧
    ((layout v.length alignT pageSize).isSome = true → env.lockOk = true →
      env.protNoneOk = false →
      (new env alignT pageSize v garbage).1 = Outcome.fatal) := by
  refine ⟨?_, ?_, ?_⟩
  · intro hl
    simp [new, new_holder, hl]
  · intro hs hlk hrw
    obtain ⟨l, hl⟩ := Option.isSome_iff_exists.mp hs
    simp [new, new_holder, hl, hlk, sd_drop, hrw]
  · intro hs hlk hpn
    obtain ⟨l, hl⟩ := Option.isSome_iff_exists.mp hs
    simp [new, new_holder, hl, hlk, hpn]

/-- Witness for the amended C8: a lock failure surfaces as an IO error. -/
theorem construction_failures_surfaced_witness :
    (new ⟨false, true, true⟩ 1 1 [5] [9]).1 = Outcome.err RError.ioError :=
  (construction_failures_surfaced ⟨false, true, true⟩ 1 1 [5] [9]).2.1
    (by decide) rfl rfl

/-- Claim C10: when the memory-lock step fails inside `new_holder`, the
partially constructed container is dropped on the error return path and
its destructor runs `drop_in_place` — the teardown of `T` — on storage
into which no value was ever written (`dropInPlace false`), before the
`Err` is returned to the caller. -/
theorem construction_error_path_drops_uninit (env : OsEnv)
    (sizeT alignT pageSize : Nat) (garbage : List Nat)
    (hlk : env.lockOk = false) (hrw : env.protRwOk = true)
    (hs : (layout sizeT alignT pageSize).isSome = true) :
    (new_holder env sizeT alignT pageSize garbage).1 =
        Outcome.err RError.ioError ∧
    (new_holder env sizeT alignT pageSize garbage).2 =
        [LEvent.alloc, LEvent.mlock, LEvent.mprotectReadWrite,
         LEvent.dropInPlace false, LEvent.volatileZero sizeT, LEvent.fence,
         LEvent.dealloc] := by
  obtain ⟨l, hl⟩ := Option.isSome_iff_exists.mp hs
  constructor
  · simp [new_holder, hl, hlk, sd_drop, hrw]
  · simp [new_holder, hl, hlk, sd_drop, hrw, zeroize_inner]

/-- Witness for C10: lock failure for a 1-byte value, drop succeeding. -/
theorem construction_error_path_drops_uninit_witness :
    (new_holder ⟨false, true, true⟩ 1 1 1 [9]).1 =
        Outcome.err RError.ioError ∧
    (new_holder ⟨false, true, true⟩ 1 1 1 [9]).2 =
        [LEvent.alloc, LEvent.mlock, LEvent.mprotectReadWrite,
         LEvent.dropInPlace false, LEvent.volatileZero 1, LEvent.fence,
         LEvent.dealloc] :=
  construction_error_path_drops_uninit ⟨false, true, true⟩ 1 1 1 [9]
    rfl rfl (by decide)

/-- Syscalls a guard can emit during the life of the container: guard
operations only ever call `make_readable`, `make_writable` and
`make_inaccessible`. -/
abbrev GuardEmittable (e : LEvent) : Prop :=
  e = LEvent.mprotectRead ∨ e = LEvent.mprotectNone ∨
    e = LEvent.mprotectReadWrite

theorem usage_count_eq_zero (usage : List LEvent)
    (husage : ∀ e ∈ usage, GuardEmittable e) (a : LEvent)
    (ha : ¬ GuardEmittable a) : usage.count a = 0 := by
  rw [List.count_eq_zero]
  intro hmem
  exact ha (husage a hmem)

/-- Claim C4: for a successfully constructed container, whatever
guard-driven protection syscalls happen during its life, destruction
appends exactly the ordered sequence make-writable, `drop_in_place` of
the (initialized) value, volatile zeroization, fence, deallocation; the
teardown of `T` runs exactly once in the whole life trace and never
before destruction, zeroization comes after teardown, and deallocation
is the final event. -/
theorem drop_runs_teardown_once_in_order (env : OsEnv)
    (alignT pageSize : Nat) (v garbage : List Nat) (usage : List LEvent)
    (c : SDState) (log : List LEvent)
    (hok : new env alignT pageSize v garbage = (Outcome.ok c, log))
    (husage : ∀ e ∈ usage, GuardEmittable e)
    (hrw : env.protRwOk = true) :
    log ++ usage ++ (sd_drop env c).2 =
      (log ++ usage) ++
        [LEvent.mprotectReadWrite, LEvent.dropInPlace true,
         LEvent.volatileZero c.sizeT, LEvent.fence, LEvent.dealloc] ∧
    (log ++ usage).count (LEvent.dropInPlace true) = 0 ∧
    (log ++ usage).count (LEvent.dropInPlace false) = 0 ∧
    (log ++ usage ++ (sd_drop env c).2).count (LEvent.dropInPlace true) = 1 ∧
    (log ++ usage ++ (sd_drop env c).2).count LEvent.dealloc = 1 := by
  obtain ⟨hsz, hinit, hby, hprot, hlog⟩ :=
    new_ok_shape env alignT pageSize v garbage c log hok
  have hdlog : (sd_drop env c).2 =
      [LEvent.mprotectReadWrite, LEvent.dropInPlace true,
       LEvent.volatileZero c.sizeT, LEvent.fence, LEvent.dealloc] := by
    simp [sd_drop, hrw, zeroize_inner, hinit]
  have hu1 : usage.count (LEvent.dropInPlace true) = 0 :=
    usage_count_eq_zero usage husage _ (by simp [GuardEmittable])
  have hu2 : usage.count (LEvent.dropInPlace false) = 0 :=
    usage_count_eq_zero usage husage _ (by simp [GuardEmittable])
  have hu3 : usage.count LEvent.dealloc = 0 :=
    usage_count_eq_zero usage husage _ (by simp [GuardEmittable])
  subst hlog
  refine ⟨by rw [hdlog, List.append_assoc], ?_, ?_, ?_, ?_⟩
  · simp [List.count_append, hu1]
  · simp [List.count_append, hu2]
  · rw [hdlog]
    simp [List.count_append, hu1]
  · rw [hdlog]
    simp [List.count_append, hu3]

/-- Witness for C4: a 1-byte value, one readable and one inaccessible
transition during the life of the container. -/
theorem drop_runs_teardown_once_in_order_witness :
    [LEvent.alloc, LEvent.mlock, LEvent.writeValue, LEvent.mprotectNone] ++
        [LEvent.mprotectRead, LEvent.mprotectNone] ++
        (sd_drop envAllOk
          ⟨1, 1, [5], Prot.Inaccessible, true, true⟩).2 =
      ([LEvent.alloc, LEvent.mlock, LEvent.writeValue, LEvent.mprotectNone] ++
          [LEvent.mprotectRead, LEvent.mprotectNone]) ++
        [LEvent.mprotectReadWrite, LEvent.dropInPlace true,
         LEvent.volatileZero
           (SDState.sizeT ⟨1, 1, [5], Prot.Inaccessible, true, true⟩),
         LEvent.fence, LEvent.dealloc] ∧
    ([LEvent.alloc, LEvent.mlock, LEvent.writeValue, LEvent.mprotectNone] ++
        [LEvent.mprotectRead, LEvent.mprotectNone]).count
          (LEvent.dropInPlace true) = 0 ∧
    ([LEvent.alloc, LEvent.mlock, LEvent.writeValue, LEvent.mprotectNone] ++
        [LEvent.mprotectRead, LEvent.mprotectNone]).count
          (LEvent.dropInPlace false) = 0 ∧
    ([LEvent.alloc, LEvent.mlock, LEvent.writeValue, LEvent.mprotectNone] ++
        [LEvent.mprotectRead, LEvent.mprotectNone] ++
        (sd_drop envAllOk
          ⟨1, 1, [5], Prot.Inaccessible, true, true⟩).2).count
          (LEvent.dropInPlace true) = 1 ∧
    ([LEvent.alloc, LEvent.mlock, LEvent.writeValue, LEvent.mprotectNone] ++
        [LEvent.mprotectRead, LEvent.mprotectNone] ++
        (sd_drop envAllOk
          ⟨1, 1, [5], Prot.Inaccessible, true, true⟩).2).count
          LEvent.dealloc = 1 :=
  drop_runs_teardown_once_in_order envAllOk 1 1 [5] [9]
    [LEvent.mprotectRead, LEvent.mprotectNone]
    ⟨1, 1, [5], Prot.Inaccessible, true, true⟩
    [LEvent.alloc, LEvent.mlock, LEvent.writeValue, LEvent.mprotectNone]
    (by decide) (by decide) rfl

end SensData
